import Mathlib

/-!
Verification of the core numeric pipeline of the XAUUSD signal agent.

The development shallowly embeds the indicator engine
(technical_analysis.py), the level detector (scipy find_peaks as used
there), the series normalizer (market_data.py fetch_xauusd_data) and the
recommendation builder (signal_generator.py) as executable Lean
definitions, and settles the frozen claims about them.

Floating point values are modelled by exact rationals; a missing value
(NaN in pandas) of a series is modelled by `Option.none`.  A pandas
series is modelled as the list of its positional values, and a pandas
column operation is embedded by its pointwise semantics at index i.
-/

/- Batteries marks the rational arithmetic operations irreducible, which
blocks elaborator-side evaluation of concrete rational computations; the
kernel itself reduces them fine.  Restore the default reducibility for
this file so that `decide` can evaluate the embedded definitions. -/
attribute [local semireducible] Rat.add Rat.sub Rat.mul Rat.inv

namespace SignalAgent

/-! Executable order helpers on ℚ (the Mathlib lattice operations do not
reduce inside the kernel, so the Python builtins min, max and abs are
embedded by explicit conditionals). -/

/-- Python / numpy `min` on two rationals. -/
def qmin (a b : ℚ) : ℚ := if a ≤ b then a else b

/-- Python / numpy `max` on two rationals. -/
def qmax (a b : ℚ) : ℚ := if a ≤ b then b else a

/-- Python / numpy `abs` on a rational. -/
def qabs (a : ℚ) : ℚ := if a < 0 then -a else a

/-! ## Indicator engine: RSI (technical_analysis.py, calculate_rsi) -/

/-- `np.finfo(float).eps`, the machine epsilon of a 64-bit float,
substituted by the source for a zero average loss. -/
def floatEps : ℚ := 1 / 2 ^ 52

/-- Pointwise semantics of `data["close"].diff()` at index `i`
(NaN at index 0, difference of consecutive closes otherwise).
Only indices below the series length are ever used. -/
def deltaAt (close : List ℚ) (i : ℕ) : Option ℚ :=
  if i = 0 then none else some (close.getD i 0 - close.getD (i - 1) 0)

/-- Pointwise semantics of `delta.where(delta > 0, 0)` at index `i`.
Note that pandas `where` replaces every position failing the condition,
so the NaN produced by `diff` at index 0 is replaced by 0 as well
(NaN > 0 evaluates to False). -/
def gainAt (close : List ℚ) (i : ℕ) : ℚ :=
  match deltaAt close i with
  | none => 0
  | some v => if 0 < v then v else 0

/-- Pointwise semantics of `-delta.where(delta < 0, 0)` at index `i`;
the NaN at index 0 is likewise replaced by 0 before negation. -/
def lossAt (close : List ℚ) (i : ℕ) : ℚ :=
  match deltaAt close i with
  | none => 0
  | some v => if v < 0 then -v else 0

/-- Pointwise semantics of `s.rolling(window=w).mean()` for a series with
no missing values, given as the function `f` of the index: missing while
fewer than `w` observations exist, else the mean of the last `w`. -/
def rollingMeanAt (f : ℕ → ℚ) (w i : ℕ) : Option ℚ :=
  if w ≤ i + 1 then some (((List.range w).map (fun k => f (i - k))).sum / (w : ℚ))
  else none

/-- `avg_gain` of calculate_rsi at index `i`. -/
def avgGainAt (close : List ℚ) (w i : ℕ) : Option ℚ :=
  rollingMeanAt (gainAt close) w i

/-- `avg_loss` of calculate_rsi at index `i`. -/
def avgLossAt (close : List ℚ) (w i : ℕ) : Option ℚ :=
  rollingMeanAt (lossAt close) w i

/-- `avg_loss.replace(0, np.finfo(float).eps)` at index `i`. -/
def avgLossEpsAt (close : List ℚ) (w i : ℕ) : Option ℚ :=
  (avgLossAt close w i).map (fun v => if v = 0 then floatEps else v)

/-- `rs = avg_gain / avg_loss.replace(0, eps)` at index `i`; missing when
either operand is missing. -/
def rsAt (close : List ℚ) (w i : ℕ) : Option ℚ :=
  (avgGainAt close w i).bind (fun g => (avgLossEpsAt close w i).map (fun l => g / l))

/-- `rsi = 100 - (100 / (1 + rs))` at index `i`. -/
def rsiAt (close : List ℚ) (w i : ℕ) : Option ℚ :=
  (rsAt close w i).map (fun r => 100 - 100 / (1 + r))

/-- Embedding of `calculate_rsi(data, window)` from technical_analysis.py:
the RSI series aligned positionally with the close series. -/
def calculate_rsi (close : List ℚ) (window : ℕ := 14) : List (Option ℚ) :=
  (List.range close.length).map (rsiAt close window)

/-! ## Indicator engine: MACD (technical_analysis.py, calculate_macd)

The close series of a canonical frame has no missing values, so the
exponential moving average with `adjust=False` is the plain recursion
y0 = x0, y(i+1) = (1-a)*y(i) + a*x(i+1) with a = 2/(span+1). -/

/-- `s.ewm(span=span, adjust=False).mean()` for a series without missing
values. -/
def ewmAdjFalse (span : ℕ) (l : List ℚ) : List ℚ :=
  let a : ℚ := 2 / ((span : ℚ) + 1)
  match l with
  | [] => []
  | x :: xs => xs.scanl (fun y v => (1 - a) * y + a * v) x

/-- Embedding of `calculate_macd(data, fast_period, slow_period,
signal_period)`: (macd line, signal line, histogram). -/
def calculate_macd (close : List ℚ) (fast_period : ℕ := 12)
    (slow_period : ℕ := 26) (signal_period : ℕ := 9) :
    List ℚ × List ℚ × List ℚ :=
  let ema_fast := ewmAdjFalse fast_period close
  let ema_slow := ewmAdjFalse slow_period close
  let macd_line := ema_fast.zipWith (fun a b => a - b) ema_slow
  let signal_line := ewmAdjFalse signal_period macd_line
  let histogram := macd_line.zipWith (fun a b => a - b) signal_line
  (macd_line, signal_line, histogram)

/-! ## Indicator engine: Bollinger bands (calculate_bollinger_bands)

The rolling standard deviation uses the pandas default ddof = 1, so the
variance of a full window of width w is the sum of squared deviations
from the window mean divided by w - 1; the standard deviation is its
real square root. -/

/-- `middle_band = data["close"].rolling(window=w).mean()` at index `i`. -/
def bbMiddleAt (close : List ℚ) (w i : ℕ) : Option ℚ :=
  rollingMeanAt (fun j => close.getD j 0) w i

/-- Rolling sample variance (ddof = 1) of the close series at index `i`:
the square of the rolling standard deviation computed by the source. -/
def bbVarAt (close : List ℚ) (w i : ℕ) : Option ℚ :=
  if w ≤ i + 1 then
    let mean := ((List.range w).map (fun k => close.getD (i - k) 0)).sum / (w : ℚ)
    some (((List.range w).map (fun k => (close.getD (i - k) 0 - mean) ^ 2)).sum / ((w : ℚ) - 1))
  else none

/-- `std_dev = data["close"].rolling(window=w).std()` at index `i`. -/
noncomputable def bbStdAt (close : List ℚ) (w i : ℕ) : Option ℝ :=
  (bbVarAt close w i).map (fun v => Real.sqrt (v : ℝ))

/-- `upper_band = middle_band + (std_dev * num_std)` at index `i`;
missing when either operand is missing. -/
noncomputable def bbUpperAt (close : List ℚ) (w : ℕ) (num_std : ℚ) (i : ℕ) : Option ℝ :=
  match bbMiddleAt close w i, bbStdAt close w i with
  | some m, some s => some ((m : ℝ) + s * (num_std : ℝ))
  | _, _ => none

/-- `lower_band = middle_band - (std_dev * num_std)` at index `i`. -/
noncomputable def bbLowerAt (close : List ℚ) (w : ℕ) (num_std : ℚ) (i : ℕ) : Option ℝ :=
  match bbMiddleAt close w i, bbStdAt close w i with
  | some m, some s => some ((m : ℝ) - s * (num_std : ℝ))
  | _, _ => none

/-- Embedding of `calculate_bollinger_bands(data, window, num_std)`:
(upper band, middle band, lower band), aligned with the close series. -/
noncomputable def calculate_bollinger_bands (close : List ℚ) (window : ℕ := 20)
    (num_std : ℚ := 2) :
    List (Option ℝ) × List (Option ℚ) × List (Option ℝ) :=
  ((List.range close.length).map (bbUpperAt close window num_std),
   (List.range close.length).map (bbMiddleAt close window),
   (List.range close.length).map (bbLowerAt close window num_std))

/-! ## Level detector: scipy.signal.find_peaks as called by
find_support_resistance

find_peaks is embedded by the algorithm scipy documents and implements:
local maxima with plateau handling (midpoint of a flat top that is
strictly rising before and strictly falling after), then the minimal
horizontal distance condition (smaller peaks removed first), then the
minimal prominence condition.  Loops are written with an explicit fuel
argument that is always large enough for the loop bound. -/

/-- Inner plateau scan of the scipy local maxima search: starting at `j`,
the first index that is `≥ iMax` or carries a value different from `v`. -/
def plateauEnd (x : List ℚ) (iMax : ℕ) (v : ℚ) : ℕ → ℕ → ℕ
  | 0, j => j
  | fuel + 1, j =>
    if j < iMax ∧ x.getD j 0 = v then plateauEnd x iMax v fuel (j + 1) else j

/-- Main loop of the scipy local maxima search over indices
`1 ≤ i < iMax` where `iMax` is the last valid index. -/
def localMaximaAux (x : List ℚ) (iMax : ℕ) : ℕ → ℕ → List ℕ
  | 0, _ => []
  | fuel + 1, i =>
    if i < iMax then
      if x.getD (i - 1) 0 < x.getD i 0 then
        let iAhead := plateauEnd x iMax (x.getD i 0) x.length (i + 1)
        if x.getD iAhead 0 < x.getD i 0 then
          (i + (iAhead - 1)) / 2 :: localMaximaAux x iMax fuel (iAhead + 1)
        else localMaximaAux x iMax fuel (i + 1)
      else localMaximaAux x iMax fuel (i + 1)
    else []

/-- All interior local maxima of `x` (midpoints of plateaus), ascending. -/
def localMaxima (x : List ℚ) : List ℕ :=
  localMaximaAux x (x.length - 1) x.length 1

/-- Leftward clearing loop of the scipy distance filter: walking down
from index `k`, mark neighbours closer than `dist` to peak position
`pkj` as not kept, stopping at the first far-enough neighbour. -/
def clearLeft (pk : List ℕ) (pkj dist : ℤ) : ℕ → List Bool → List Bool
  | 0, keep => keep
  | k + 1, keep =>
    if pkj - (pk.getD k 0 : ℤ) < dist then clearLeft pk pkj dist k (keep.set k false)
    else keep

/-- Rightward clearing loop of the scipy distance filter. -/
def clearRight (pk : List ℕ) (pkj dist : ℤ) (m : ℕ) : ℕ → ℕ → List Bool → List Bool
  | 0, _, keep => keep
  | fuel + 1, k, keep =>
    if k < m ∧ (pk.getD k 0 : ℤ) - pkj < dist then
      clearRight pk pkj dist m fuel (k + 1) (keep.set k false)
    else keep

/-- scipy _select_by_peak_distance: visit peaks by descending priority
(their height in `x`); each still-kept peak clears all closer-than-dist
neighbours on both sides.  numpy argsort is modelled by a stable sort on
the positions (ties among equal heights are not exercised by any claim). -/
def selectByPeakDistance (x : List ℚ) (peaks : List ℕ) (dist : ℕ) : List ℕ :=
  let m := peaks.length
  let priority := peaks.map (fun p => x.getD p 0)
  let order := List.insertionSort
    (fun i j => priority.getD i 0 ≤ priority.getD j 0) (List.range m)
  let keep := order.reverse.foldl (fun keep j =>
    if keep.getD j false then
      let pkj : ℤ := (peaks.getD j 0 : ℤ)
      clearRight peaks pkj dist m (m - (j + 1)) (j + 1)
        (clearLeft peaks pkj dist j keep)
    else keep) (List.replicate m true)
  ((List.range m).filter (fun i => keep.getD i false)).map (fun i => peaks.getD i 0)

/-- Left walk of scipy _peak_prominences: from the peak, walk left while
the value stays `≤` the peak value, tracking the minimum seen. -/
def promWalkLeft (x : List ℚ) (xp : ℚ) : ℕ → ℚ → ℚ
  | 0, cmin => cmin
  | i + 1, cmin =>
    if x.getD (i + 1) 0 ≤ xp then promWalkLeft x xp i (qmin cmin (x.getD i 0))
    else cmin

/-- Right walk of scipy _peak_prominences, bounded by the last index. -/
def promWalkRight (x : List ℚ) (xp : ℚ) (iMax : ℕ) : ℕ → ℕ → ℚ → ℚ
  | 0, _, cmin => cmin
  | fuel + 1, i, cmin =>
    if i < iMax ∧ x.getD i 0 ≤ xp then
      promWalkRight x xp iMax fuel (i + 1) (qmin cmin (x.getD (i + 1) 0))
    else cmin

/-- Prominence of the peak at index `p`: peak value minus the larger of
the left and right base minima. -/
def peakProminence (x : List ℚ) (p : ℕ) : ℚ :=
  let xp := x.getD p 0
  let lmin := promWalkLeft x xp p xp
  let rmin := promWalkRight x xp (x.length - 1) (x.length - 1 - p) p xp
  xp - qmax lmin rmin

/-- Embedding of `scipy.signal.find_peaks(x, distance=dist,
prominence=prom)`: indices of the kept peaks, ascending.  The distance
condition is applied before the prominence condition, as in scipy. -/
def find_peaks (x : List ℚ) (dist : ℕ) (prom : ℚ) : List ℕ :=
  (selectByPeakDistance x (localMaxima x) dist).filter
    (fun p => prom ≤ peakProminence x p)

/-! ## Level detector: find_support_resistance (technical_analysis.py) -/

/-- The slice `arr[-5:]` of a list. -/
def lastFive (l : List ℚ) : List ℚ := l.drop (l.length - 5)

/-- The deduplication comprehension of find_support_resistance:
`[lv[0]] + [s for i, s in enumerate(lv[1:]) if abs(s - lv[i]) / s > 0.001]`.
Each element after the first is compared against its predecessor in the
input list (not against the previously kept element) and the relative
distance is measured against the later element. -/
def dedupLevels : List ℚ → List ℚ
  | [] => []
  | a :: rest =>
    a :: ((rest.zip (a :: rest)).filter
      (fun p => (1 : ℚ) / 1000 < qabs (p.1 - p.2) / p.1)).map Prod.fst

/-- Recursive form of the deduplication comprehension: each element is
tested against its predecessor in the input list. -/
def dedupAux (prev : ℚ) : List ℚ → List ℚ
  | [] => []
  | s :: rest =>
    if (1 : ℚ) / 1000 < qabs (s - prev) / s then s :: dedupAux s rest
    else dedupAux s rest

/-- The spacing relation of the claim: the later level differs from the
earlier one by more than 0.1 percent of the earlier one. -/
def wellSeparated (a b : ℚ) : Prop := (1 : ℚ) / 1000 < qabs (b - a) / a

/-- The guarded recency cut applied to each candidate set:
`np.array(sorted(levels))[-5:] if len(levels) > 0 else []`. -/
def keepRecentLevels (levels : List ℚ) : List ℚ :=
  if 0 < levels.length then lastFive (List.insertionSort (fun a b => a ≤ b) levels)
  else []

/-- The guarded deduplication applied to each candidate set:
the comprehension runs only `if len(levels) > 0`. -/
def dedupIfNonempty (levels : List ℚ) : List ℚ :=
  if 0 < levels.length then dedupLevels levels else levels

/-- Embedding of `find_support_resistance(data, window, prominence)`:
peaks of the close series give resistance candidates, peaks of the
negated series give support candidates; each candidate set is sorted
ascending, cut to its last five elements, and deduplicated. -/
def find_support_resistance (close : List ℚ) (window : ℕ := 10)
    (prominence : ℚ := 1 / 2) : List ℚ × List ℚ :=
  let prices := close
  let resistance_idx := find_peaks prices window prominence
  let resistance_levels := resistance_idx.map (fun i => prices.getD i 0)
  let support_idx := find_peaks (prices.map (fun p => -p)) window prominence
  let support_levels := support_idx.map (fun i => prices.getD i 0)
  (dedupIfNonempty (keepRecentLevels support_levels),
   dedupIfNonempty (keepRecentLevels resistance_levels))

/-! ## Bundle assembler: calculate_all_indicators (technical_analysis.py)

A canonical data frame (the output of the normalizer, as consumed by the
analysis functions) is modelled by its six canonical columns; the close,
high and low columns are the ones the analysis reads.  Dates are
modelled as integers (epoch offsets). -/

/-- The canonical price frame consumed by calculate_all_indicators. -/
structure CanonFrame where
  date : List ℤ
  open_ : List ℚ
  high : List ℚ
  low : List ℚ
  close : List ℚ
  volume : List ℚ
deriving DecidableEq

/-- `df.empty` for a canonical frame (pandas: no rows). -/
def CanonFrame.isEmpty (f : CanonFrame) : Bool := f.close.isEmpty

/-- The canonical frame with no rows. -/
def emptyCanonSeries : CanonFrame := ⟨[], [], [], [], [], []⟩

/-- The dictionary returned by calculate_all_indicators: the input frame
with the indicator columns appended, the two level lists, and the last
close price (absent for an empty frame). -/
structure Bundle where
  data : CanonFrame
  rsi : List (Option ℚ)
  macd : List ℚ
  macd_signal : List ℚ
  macd_histogram : List ℚ
  bb_upper : List (Option ℝ)
  bb_middle : List (Option ℚ)
  bb_lower : List (Option ℝ)
  support_levels : List ℚ
  resistance_levels : List ℚ
  last_price : Option ℚ

/-- Embedding of `calculate_all_indicators(data)`: runs the indicator
engine and the level detector over the close column and assembles the
result; `last_price` is `data["close"].iloc[-1]` when the frame is
non-empty and `None` otherwise. -/
noncomputable def calculate_all_indicators (data : CanonFrame) : Bundle :=
  let rsi := calculate_rsi data.close 14
  let macdTriple := calculate_macd data.close 12 26 9
  let bbTriple := calculate_bollinger_bands data.close 20 2
  let levels := find_support_resistance data.close 10 (1 / 2)
  { data := data
    rsi := rsi
    macd := macdTriple.1
    macd_signal := macdTriple.2.1
    macd_histogram := macdTriple.2.2
    bb_upper := bbTriple.1
    bb_middle := bbTriple.2.1
    bb_lower := bbTriple.2.2
    support_levels := levels.1
    resistance_levels := levels.2
    last_price := if data.isEmpty then none else data.close.getLast? }

/-! ## Recommendation builder: SignalGenerator.generate_trade_signal
(signal_generator.py)

The external text-generation call is abstracted as a parameter of type
`Except String SignalReply`: `.error e` covers a network failure, a
missing credential or a malformed (non JSON) reply body raised by
`json.loads`, and `.ok r` is a successfully parsed reply.  The prompt
text itself carries no information relevant to any claim and is not
modelled; what is modelled is the control flow of the method: the
missing-prerequisite early return, the exception that string-formatting
a `None` current price raises before the service is called, the
try/except wrapper, and the exact contents of the two failure results. -/

/-- The fixed-schema JSON reply dictionary. -/
structure SignalReply where
  signal : String
  entry_price : ℚ
  stop_loss : ℚ
  take_profit : ℚ
  confidence : String
  rationale : String
  risk_factors : String
deriving DecidableEq

/-- A result of generate_trade_signal: either the insufficient-data
error marker `{"error": msg}` or a reply dictionary with the full
signal schema. -/
inductive GenResult where
  | errObj (msg : String)
  | reply (r : SignalReply)
deriving DecidableEq

/-- The reply dictionary built by the `except` branch of
generate_trade_signal for the exception text `e`. -/
def errorReplyFor (e : String) : SignalReply :=
  { signal := "ERROR"
    entry_price := 0
    stop_loss := 0
    take_profit := 0
    confidence := "LOW"
    rationale := "Failed to generate trade signal: " ++ e
    risk_factors := "Unable to assess risks due to signal generation failure" }

/-- The body of generate_trade_signal inside the `try`: `.error`
positions are the places where the Python body raises. -/
def genBody (market_data : CanonFrame) (analysis_data : Option Bundle)
    (svc : Except String SignalReply) : Except String GenResult :=
  match analysis_data with
  | none => .ok (.errObj "Insufficient data to generate trade signal")
  | some b =>
    if market_data.isEmpty then
      .ok (.errObj "Insufficient data to generate trade signal")
    else
      match b.last_price with
      | none => .error "unsupported format string passed to NoneType.__format__"
      | some _ =>
        match svc with
        | .error e => .error e
        | .ok r => .ok (.reply r)

/-- Whether control flow of the body reaches the external service call:
prerequisites present and the prompt formatting step succeeded. -/
def svcCalled (market_data : CanonFrame) (analysis_data : Option Bundle) : Bool :=
  match analysis_data with
  | none => false
  | some b => !market_data.isEmpty && b.last_price.isSome

/-- Embedding of `SignalGenerator.generate_trade_signal(market_data,
analysis_data)`: the try/except wrapper around `genBody` together with a
flag recording whether the external service call was issued.  Any
exception of the body is converted into the populated ERROR reply. -/
def genCore (market_data : CanonFrame) (analysis_data : Option Bundle)
    (svc : Except String SignalReply) : GenResult × Bool :=
  (match genBody market_data analysis_data svc with
   | .ok r => r
   | .error e => .reply (errorReplyFor e),
   svcCalled market_data analysis_data)

/-- The dictionary generate_trade_signal returns to its caller. -/
def generate_trade_signal (market_data : CanonFrame) (analysis_data : Option Bundle)
    (svc : Except String SignalReply) : GenResult :=
  (genCore market_data analysis_data svc).1

/-- Whether a result is a reply populated as the claim describes:
signal ERROR, zeroed prices, confidence LOW. -/
def isErrorPopulatedReply : GenResult → Bool
  | .reply r =>
    decide (r.signal = "ERROR" ∧ r.entry_price = 0 ∧ r.stop_loss = 0 ∧
      r.take_profit = 0 ∧ r.confidence = "LOW")
  | .errObj _ => false

/-! ## Series normalizer: fetch_xauusd_data (market_data.py)

The raw feed downloaded from the provider is a data frame of unknown
column naming: possibly two-level column headers, arbitrary casing, and
the timestamp stored in the index.  A cell is a number, a missing value
(NaN), a parsed datetime, or an unparsed raw string; a frame is the
ordered list of its named columns.  `pd.to_datetime` is modelled as the
identity on parsed datetimes, epoch interpretation of numbers, and a
parser on raw strings that succeeds exactly on digit strings (standing
for the parseable date formats) and raises otherwise. -/

/-- One cell of a raw or normalized data frame. -/
inductive Cell where
  | num (q : ℚ)
  | nan
  | time (t : ℤ)
  | raw (s : String)
deriving DecidableEq

/-- A single-level data frame: ordered named columns. -/
abbrev Frame := List (String × List Cell)

/-- The column index of the downloaded frame: either a plain index or a
pandas MultiIndex whose labels are (field, ticker) pairs. -/
inductive RawCols where
  | single (cs : List (String × List Cell))
  | multi (cs : List ((String × String) × List Cell))
deriving DecidableEq

/-- The raw downloaded frame: its columns plus its row index, which
`reset_index` turns into the leading column named `idxName`. -/
structure RawFrame where
  cols : RawCols
  idxName : String
  idx : List Cell
deriving DecidableEq

/-- The first-level names accepted when collapsing a MultiIndex. -/
def ohlcvTopNames : List String := ["Open", "High", "Low", "Close", "Volume", "Adj Close"]

/-- Flattening of a possible MultiIndex column set: collapse to the
first level when every first level name is a known OHLCV field,
otherwise join the two levels with an underscore. -/
def flattenCols : RawCols → List (String × List Cell)
  | .single cs => cs
  | .multi cs =>
    if cs.all (fun c => ohlcvTopNames.contains c.1.1) then
      cs.map (fun c => (c.1.1, c.2))
    else
      cs.map (fun c => (c.1.1 ++ "_" ++ c.1.2, c.2))

/-- Character-level model of `str.lower` composed with replacing spaces
by underscores (the core string functions recurse on byte positions and
do not reduce, so the step is embedded on the character list). -/
def sanitizeChar (ch : Char) : Char :=
  if ch = ' ' then '_' else ch.toLower

/-- `str(col).lower().replace(" ", "_")`. -/
def sanitizeName (s : String) : String := ⟨s.data.map sanitizeChar⟩

/-- Lowercasing alone, for the match tests of the source. -/
def lowerStr (s : String) : String := ⟨s.data.map Char.toLower⟩

/-- Lowercasing step applied to every column name. -/
def lowerCols (f : Frame) : Frame := f.map (fun c => (sanitizeName c.1, c.2))

/-- Whether a column with exactly the given name exists. -/
def hasCol (f : Frame) (n : String) : Bool := f.any (fun c => c.1 = n)

/-- The cells of the first column with the given name ([] if absent). -/
def getColD (f : Frame) (n : String) : List Cell :=
  ((f.find? (fun c => c.1 = n)).map Prod.snd).getD []

/-- `df.rename(columns={old: new})`: renames every column labelled `old`. -/
def renameCol (old new : String) (f : Frame) : Frame :=
  f.map (fun c => if c.1 = old then (new, c.2) else c)

/-- `df[name] = vals`: replace the first column with that name, or append. -/
def setCol (name : String) (vals : List Cell) : Frame → Frame
  | [] => [(name, vals)]
  | c :: rest => if c.1 = name then (name, vals) :: rest else c :: setCol name vals rest

/-- Whether `p` is a prefix of `s`, on character lists. -/
def charsPrefix : List Char → List Char → Bool
  | [], _ => true
  | _ :: _, [] => false
  | p :: ps, c :: cs => p = c && charsPrefix ps cs

/-- Whether `pat` occurs somewhere in `s`, on character lists. -/
def charsInfix (pat : List Char) : List Char → Bool
  | [] => charsPrefix pat []
  | c :: cs => charsPrefix pat (c :: cs) || charsInfix pat cs

/-- The Python substring test `pat in s`. -/
def strHasSubstr (s pat : String) : Bool := charsInfix pat.data s.data

/-- The substrings announcing a time-related column. -/
def timeWords : List String := ["date", "time", "datetime"]

/-- Timestamp column resolution: literal `date`, else `datetime` renamed,
else the first column whose lowered name contains a time word; after
`reset_index` the frame index can no longer be a DatetimeIndex, so the
final fallback of the source is the failure branch. -/
def resolveDateCol (f : Frame) : Except String Frame :=
  if hasCol f "date" then .ok f
  else if hasCol f "datetime" then .ok (renameCol "datetime" "date" f)
  else
    match f.find? (fun c => timeWords.any (fun w => strHasSubstr (lowerStr c.1) w)) with
    | some c => .ok (renameCol c.1 "date" f)
    | none => .error "Could not identify a datetime column in the data"

/-- Structural digit-string parser (the core `String.toNat?` recurses on
byte positions and does not reduce). -/
def digitsToNat : List Char → Option ℕ
  | [] => some 0
  | c :: cs =>
    if c.isDigit then
      (digitsToNat cs).map (fun n => (c.toNat - 48) * 10 ^ cs.length + n)
    else none

/-- Whether a cell is a parsed datetime. -/
def isTimeCell : Cell → Bool
  | .time _ => true
  | _ => false

/-- Model of `pd.to_datetime` on one cell: the identity on parsed
datetimes, epoch interpretation of numbers, NaT for NaN, and a parser on
raw strings succeeding exactly on non-empty digit strings (standing for
the parseable date formats) and raising otherwise. -/
def toDatetimeCell : Cell → Except String Cell
  | .time t => .ok (.time t)
  | .num q => .ok (.time q.floor)
  | .nan => .ok .nan
  | .raw s =>
    match s.data with
    | [] => .error "Unknown datetime string format"
    | c :: cs =>
      match digitsToNat (c :: cs) with
      | some n => .ok (.time (n : ℤ))
      | none => .error ("Unknown datetime string format: " ++ s)

/-- `data["date"] = pd.to_datetime(data["date"])`; a parse failure is an
exception of the body. -/
def parseDates (f : Frame) : Except String Frame :=
  match (getColD f "date").mapM toDatetimeCell with
  | .ok parsed => .ok (setCol "date" parsed f)
  | .error e => .error e

/-- The required price columns, in resolution order. -/
def requiredColumns : List String := ["open", "high", "low", "close", "volume"]

/-- First resolution pass: for each required column not present, rename
the first column matching case-insensitively. -/
def resolveCase (f : Frame) : Frame :=
  requiredColumns.foldl (fun f req =>
    if hasCol f req then f
    else
      match f.find? (fun c => lowerStr c.1 = req) with
      | some c => renameCol c.1 req f
      | none => f) f

/-- Second resolution pass: for each required column still missing,
rename the first column containing its name as a substring. -/
def resolveSubstr (f : Frame) : Frame :=
  requiredColumns.foldl (fun f req =>
    if hasCol f req then f
    else
      match f.find? (fun c => strHasSubstr (lowerStr c.1) req) with
      | some c => renameCol c.1 req f
      | none => f) f

/-- `close.diff()` on cells: NaN first, consecutive differences after
(non-numeric operands give NaN, as float arithmetic would). -/
def diffCells (l : List Cell) : List Cell :=
  match l with
  | [] => []
  | _ :: rest =>
    Cell.nan :: rest.zipWith (fun b a =>
      match b, a with
      | Cell.num vb, Cell.num va => Cell.num (vb - va)
      | _, _ => Cell.nan) l

/-- `close.pct_change() * 100` on cells; a zero or non-numeric
predecessor gives NaN. -/
def pctCells (l : List Cell) : List Cell :=
  match l with
  | [] => []
  | _ :: rest =>
    Cell.nan :: rest.zipWith (fun b a =>
      match b, a with
      | Cell.num vb, Cell.num va =>
        if va = 0 then Cell.nan else Cell.num ((vb / va - 1) * 100)
      | _, _ => Cell.nan) l

/-- The normalization steps applied after `reset_index`: lowercase the
names, resolve and parse the timestamp column, resolve the required
price columns (exact, case-insensitive, substring, then the adjusted
close fallback), and append the derived change columns.  An `.error`
is an exception of the body of fetch_xauusd_data. -/
def normalizeSteps (f0 : Frame) : Except String Frame :=
  let f1 := lowerCols f0
  match resolveDateCol f1 with
  | .error e => .error e
  | .ok f2 =>
    match parseDates f2 with
    | .error e => .error e
    | .ok f3 =>
      let f4 := resolveCase f3
      let f5 := resolveSubstr f4
      let missing := requiredColumns.filter (fun r => ¬ hasCol f5 r)
      let f6 :=
        if missing.contains "close" && hasCol f5 "adj_close" then
          renameCol "adj_close" "close" f5
        else f5
      let missing2 := missing.filter (fun r => hasCol f6 r = false)
      if missing2.isEmpty then
        let close := getColD f6 "close"
        let f7 := setCol "price_change" (diffCells close) f6
        let f8 := setCol "percent_change" (pctCells close) f7
        .ok f8
      else
        .error ("Could not find required columns: " ++ String.intercalate ", " missing2)

/-- The body of fetch_xauusd_data after the download, from the empty
check through the derived columns: flatten a possible MultiIndex,
`reset_index` (which prepends the index as a column), then the
normalization steps. -/
def normalizeBody (raw : RawFrame) : Except String Frame :=
  if raw.idx.length = 0 then .error "No data retrieved from Yahoo Finance"
  else normalizeSteps ((raw.idxName, raw.idx) :: flattenCols raw.cols)

/-- The empty canonical frame built by the `except` branch. -/
def emptyCanonical : Frame :=
  [("date", []), ("open", []), ("high", []), ("low", []), ("close", []), ("volume", [])]

/-- Embedding of `fetch_xauusd_data`: the try/except wrapper, returning
the empty canonical frame on any failure of the body. -/
def fetch_xauusd_data (raw : RawFrame) : Frame :=
  match normalizeBody raw with
  | .ok f => f
  | .error _ => emptyCanonical

/-! ## Concrete inputs used by witnesses and counterexamples -/

/-- A raw feed whose columns carry no recognizable timestamp name. -/
def rawNoTimestamp : RawFrame :=
  { cols := .single [("Open", [.num 1]), ("High", [.num 2]), ("Low", [.num 1]),
      ("Close", [.num 2]), ("Volume", [.num 3])]
    idxName := "level_0"
    idx := [.num 0] }

/-- A canonical frame with a single row. -/
def oneRowFrame : CanonFrame := ⟨[0], [1], [2], [1], [2], [3]⟩

/-- A concrete analysis bundle whose last price is present. -/
def stubBundle : Bundle :=
  { data := oneRowFrame
    rsi := [none]
    macd := [0]
    macd_signal := [0]
    macd_histogram := [0]
    bb_upper := [none]
    bb_middle := [none]
    bb_lower := [none]
    support_levels := []
    resistance_levels := []
    last_price := some 2 }

/-! ## Order helper lemmas -/

theorem qmin_le_left (a b : ℚ) : qmin a b ≤ a := by
  unfold qmin; split <;> linarith

theorem qmin_le_right (a b : ℚ) : qmin a b ≤ b := by
  unfold qmin; split <;> linarith

theorem le_qmax_left (a b : ℚ) : a ≤ qmax a b := by
  unfold qmax; split <;> linarith

theorem le_qmax_right (a b : ℚ) : b ≤ qmax a b := by
  unfold qmax; split <;> linarith

theorem qabs_of_nonneg {a : ℚ} (h : 0 ≤ a) : qabs a = a := by
  unfold qabs; split <;> linarith

/-! ## Claim C1 -/

/-- C1: for every raw input feed, the normalizer body never lets a
failure escape: whenever the body fails with any error, fetch_xauusd_data
returns the empty canonical frame, whose column set is exactly
date, open, high, low, close, volume. -/
theorem fetch_failure_returns_empty_sentinel (raw : RawFrame) (e : String)
    (h : normalizeBody raw = .error e) :
    fetch_xauusd_data raw = emptyCanonical ∧
      (fetch_xauusd_data raw).map Prod.fst =
        ["date", "open", "high", "low", "close", "volume"] ∧
      ∀ c ∈ fetch_xauusd_data raw, c.2 = [] := by
  have hf : fetch_xauusd_data raw = emptyCanonical := by
    unfold fetch_xauusd_data
    rw [h]
  rw [hf]
  exact ⟨rfl, rfl, by decide⟩

/-- Witness: the body fails on the feed without a timestamp column, and
the theorem applies there. -/
theorem fetch_failure_returns_empty_sentinel_witness :
    fetch_xauusd_data rawNoTimestamp = emptyCanonical ∧
      (fetch_xauusd_data rawNoTimestamp).map Prod.fst =
        ["date", "open", "high", "low", "close", "volume"] ∧
      ∀ c ∈ fetch_xauusd_data rawNoTimestamp, c.2 = [] :=
  fetch_failure_returns_empty_sentinel rawNoTimestamp
    "Could not identify a datetime column in the data" rfl

/-! ## Claim C2

The claim is refuted on the missing-prerequisite branch: for empty
market data (or absent analysis data) the source returns the dictionary
`{"error": "Insufficient data to generate trade signal"}`, which carries
none of the fields signal, entry_price, stop_loss, take_profit or
confidence; the populated ERROR reply is produced only by the `except`
branch, i.e. for failures that raise (network error, malformed JSON,
formatting failures). -/

/-- C2 counterexample: on empty market data (a missing-prerequisite
failure, with the external service failing as well) the returned value
is the bare error marker, not a reply populated with signal ERROR and
zeroed prices. -/
theorem generate_trade_signal_insufficient_not_error_reply :
    generate_trade_signal emptyCanonSeries (some stubBundle)
        (.error "the network is unreachable")
      = .errObj "Insufficient data to generate trade signal" ∧
    isErrorPopulatedReply (generate_trade_signal emptyCanonSeries (some stubBundle)
        (.error "the network is unreachable")) = false := by
  exact ⟨rfl, rfl⟩

/-- C2 amended: generate_trade_signal never propagates a fault; on
missing prerequisite data (empty market data or absent analysis data) it
returns the error marker dictionary, and on failures that raise inside
the body — network error or malformed JSON reply, modelled by a failing
service call — it returns the reply populated with signal ERROR, zeroed
prices, confidence LOW and the failure message in the rationale. -/
theorem generate_trade_signal_failure_contract (md : CanonFrame)
    (a : Option Bundle) (svc : Except String SignalReply) :
    ((md.isEmpty = true ∨ a = none) →
      generate_trade_signal md a svc
        = .errObj "Insufficient data to generate trade signal") ∧
    (∀ b e, a = some b → md.isEmpty = false → b.last_price.isSome = true →
      svc = .error e →
      generate_trade_signal md a svc
        = .reply ⟨"ERROR", 0, 0, 0, "LOW", "Failed to generate trade signal: " ++ e,
            "Unable to assess risks due to signal generation failure"⟩) := by
  constructor
  · intro h
    unfold generate_trade_signal genCore genBody
    match a with
    | none => rfl
    | some b =>
      have hmd : md.isEmpty = true := by
        rcases h with h | h
        · exact h
        · cases h
      simp [hmd]
  · intro b e ha hmd hlast hsvc
    subst ha
    subst hsvc
    unfold generate_trade_signal genCore genBody
    match hb : b.last_price with
    | none => rw [hb] at hlast; cases hlast
    | some p =>
      simp [hmd, hb, errorReplyFor]

/-- Witness: the amended contract applied at concrete inputs on both
branches. -/
theorem generate_trade_signal_failure_contract_witness :
    generate_trade_signal emptyCanonSeries none (.error "x")
      = .errObj "Insufficient data to generate trade signal" ∧
    generate_trade_signal oneRowFrame (some stubBundle) (.error "boom")
      = .reply ⟨"ERROR", 0, 0, 0, "LOW", "Failed to generate trade signal: " ++ "boom",
          "Unable to assess risks due to signal generation failure"⟩ :=
  ⟨(generate_trade_signal_failure_contract emptyCanonSeries none (.error "x")).1
      (Or.inr rfl),
   (generate_trade_signal_failure_contract oneRowFrame (some stubBundle)
      (.error "boom")).2 stubBundle "boom" rfl rfl rfl rfl⟩

/-! ## Claim C8 -/

/-- C8: on the empty input table, the bundle assembler returns a bundle
with an empty series, empty level sets and an absent last price, and the
recommendation builder applied to that bundle returns the
insufficient-data error marker without issuing the external service
call, whatever the service would have answered. -/
theorem empty_input_bundle_and_no_service_call (svc : Except String SignalReply) :
    (calculate_all_indicators emptyCanonSeries).data = emptyCanonSeries ∧
    (calculate_all_indicators emptyCanonSeries).rsi = [] ∧
    (calculate_all_indicators emptyCanonSeries).macd = [] ∧
    (calculate_all_indicators emptyCanonSeries).bb_middle = [] ∧
    (calculate_all_indicators emptyCanonSeries).support_levels = [] ∧
    (calculate_all_indicators emptyCanonSeries).resistance_levels = [] ∧
    (calculate_all_indicators emptyCanonSeries).last_price = none ∧
    genCore emptyCanonSeries (some (calculate_all_indicators emptyCanonSeries)) svc
      = (.errObj "Insufficient data to generate trade signal", false) := by
  refine ⟨rfl, rfl, rfl, rfl, rfl, rfl, rfl, rfl⟩

/-! ## Claims C3 and C4: RSI

The claims hinge on where the RSI series is missing.  Because pandas
`where` replaces the NaN that `diff` leaves at index 0 by 0 (NaN > 0 is
False), the gain and loss series have no missing values at all, and the
rolling means are present from index window - 1 on, not from index
window: the RSI warm-up is one row shorter than the spec states. -/

/-- Indexing a mapped range: the pointwise function under a default. -/
theorem getD_range_map {α : Type} (f : ℕ → α) (n i : ℕ) (d : α) :
    ((List.range n).map f).getD i d = if i < n then f i else d := by
  by_cases h : i < n
  · rw [List.getD_eq_getElem?_getD, List.getElem?_map, List.getElem?_range h]
    simp [h]
  · rw [List.getD_eq_getElem?_getD, List.getElem?_map,
      List.getElem?_eq_none (by simpa using Nat.le_of_not_lt h)]
    simp [h]

/-- The RSI value at a valid index is present exactly when the rolling
window is full, i.e. from index `w - 1` on. -/
theorem rsiAt_isNone_iff (close : List ℚ) (w i : ℕ) :
    (rsiAt close w i = none ↔ i + 1 < w) := by
  unfold rsiAt rsAt avgGainAt avgLossEpsAt avgLossAt rollingMeanAt
  by_cases h : w ≤ i + 1 <;> simp [h] <;> omega

/-- C3 counterexample: for the three-point series [1, 2, 3] and window
2, the claim requires the first `window = 2` rows to be missing, but the
RSI value at index 1 = window - 1 is already present. -/
theorem calculate_rsi_present_at_window_sub_one :
    ((calculate_rsi [1, 2, 3] 2).getD 1 none).isSome = true ∧ (1 : ℕ) < 2 := by
  exact ⟨by decide, by decide⟩

/-- C3 amended: for every series of length greater than `window`, the
RSI series is missing exactly on the first `window - 1` rows (indices
`i` with `i + 1 < window`) and present from index `window - 1` onward. -/
theorem calculate_rsi_warmup (close : List ℚ) (w : ℕ) (hl : w < close.length) :
    ∀ i < close.length, ((calculate_rsi close w).getD i none = none ↔ i + 1 < w) := by
  intro i hi
  rw [calculate_rsi, getD_range_map]
  rw [if_pos hi]
  exact rsiAt_isNone_iff close w i

/-- Witness: the amended warm-up bound applied at [1, 2, 3], window 2,
index 1. -/
theorem calculate_rsi_warmup_witness :
    (calculate_rsi [1, 2, 3] 2).getD 1 none = none ↔ 1 + 1 < 2 :=
  calculate_rsi_warmup [1, 2, 3] 2 (by decide) 1 (by decide)

/-- Every gain is non-negative. -/
theorem gainAt_nonneg (close : List ℚ) (i : ℕ) : 0 ≤ gainAt close i := by
  unfold gainAt
  cases deltaAt close i with
  | none => simp
  | some v => dsimp only; split <;> linarith

/-- Every loss is non-negative. -/
theorem lossAt_nonneg (close : List ℚ) (i : ℕ) : 0 ≤ lossAt close i := by
  unfold lossAt
  cases deltaAt close i with
  | none => simp
  | some v => dsimp only; split <;> linarith

/-- A rolling mean of a non-negative series is non-negative. -/
theorem rollingMeanAt_nonneg (f : ℕ → ℚ) (hf : ∀ j, 0 ≤ f j) (w i : ℕ) (m : ℚ)
    (h : rollingMeanAt f w i = some m) : 0 ≤ m := by
  unfold rollingMeanAt at h
  by_cases hw : w ≤ i + 1
  · rw [if_pos hw] at h
    have hm : m = ((List.range w).map (fun k => f (i - k))).sum / (w : ℚ) := by
      exact (Option.some_injective _ h).symm
    have hsum : 0 ≤ ((List.range w).map (fun k => f (i - k))).sum := by
      apply List.sum_nonneg
      intro x hx
      rcases List.mem_map.mp hx with ⟨k, _, rfl⟩
      exact hf _
    rw [hm]
    positivity
  · rw [if_neg hw] at h
    cases h

/-- C4 counterexample: on the flat series [5, 5, 5] with window 2, the
rolling average loss at index 1 is exactly 0, the epsilon substitution
fires, and the resulting RSI value is 0 — a present, finite value, but
at the opposite end of the scale from the "near 100" the claim states
(the average gain is 0 as well, so RS = 0). -/
theorem calculate_rsi_flat_series_zero :
    avgLossAt [5, 5, 5] 2 1 = some 0 ∧
    (calculate_rsi [5, 5, 5] 2).getD 1 none = some 0 := by
  constructor
  · decide
  · decide

/-- C4 amended: under the claim hypotheses every present RSI value lies
in [0, 100]; and when the rolling average loss is exactly 0, the divisor
is replaced by the machine epsilon, so the value is present and equals
100 * g / (g + eps) where g is the rolling average gain — near 100 when
g is large against eps, but 0 when g = 0 (flat window). -/
theorem calculate_rsi_bounds (close : List ℚ) (w : ℕ)
    (hlen : w + 1 ≤ close.length) (hpos : ∀ x ∈ close, 0 < x) :
    (∀ i v, (calculate_rsi close w).getD i none = some v → 0 ≤ v ∧ v ≤ 100) ∧
    (∀ i g, i < close.length → avgLossAt close w i = some 0 →
      avgGainAt close w i = some g →
      (calculate_rsi close w).getD i none = some (100 * g / (g + floatEps))) := by
  constructor
  · intro i v hv
    rw [calculate_rsi, getD_range_map] at hv
    by_cases hi : i < close.length
    · rw [if_pos hi] at hv
      unfold rsiAt rsAt at hv
      cases hg : avgGainAt close w i with
      | none => rw [hg] at hv; cases hv
      | some g =>
        cases hl : avgLossEpsAt close w i with
        | none => rw [hg, hl] at hv; cases hv
        | some l =>
          rw [hg, hl] at hv
          simp only [Option.some_bind, Option.map_some'] at hv
          have hv' : v = 100 - 100 / (1 + g / l) := (Option.some_injective _ hv).symm
          have hgnn : 0 ≤ g := rollingMeanAt_nonneg _ (gainAt_nonneg close) w i g hg
          have hlpos : 0 < l := by
            unfold avgLossEpsAt at hl
            cases hl0 : avgLossAt close w i with
            | none => rw [hl0] at hl; cases hl
            | some l0 =>
              rw [hl0] at hl
              simp only [Option.map_some'] at hl
              have : l = if l0 = 0 then floatEps else l0 := (Option.some_injective _ hl).symm
              have hl0nn : 0 ≤ l0 := rollingMeanAt_nonneg _ (lossAt_nonneg close) w i l0 hl0
              rw [this]
              split
              · unfold floatEps; positivity
              · rename_i hne
                exact lt_of_le_of_ne hl0nn (Ne.symm hne)
          have hrs : 0 ≤ g / l := div_nonneg hgnn (le_of_lt hlpos)
          have h1 : (0 : ℚ) < 1 + g / l := by linarith
          have hdivpos : 0 < 100 / (1 + g / l) := by positivity
          have hdivle : 100 / (1 + g / l) ≤ 100 := by
            rw [div_le_iff h1]
            nlinarith
          constructor <;> rw [hv'] <;> linarith
    · rw [if_neg hi] at hv; cases hv
  · intro i g hi hloss hgain
    rw [calculate_rsi, getD_range_map, if_pos hi]
    unfold rsiAt rsAt avgLossEpsAt
    rw [hgain, hloss]
    simp only [Option.map_some', if_pos rfl, Option.some_bind]
    congr 1
    have hgnn : 0 ≤ g := rollingMeanAt_nonneg _ (gainAt_nonneg close) w i g hgain
    have heps : (0 : ℚ) < floatEps := by unfold floatEps; positivity
    have hne : g + floatEps ≠ 0 := by positivity
    have hne2 : (1 : ℚ) + g / floatEps ≠ 0 := by positivity
    field_simp
    ring

/-- Witness: the amended RSI bounds applied at [1, 2, 3] with window 2:
at index 1 the average loss is 0, the average gain 1/2, the RSI value is
100 * (1/2) / (1/2 + eps), and it lies in [0, 100]. -/
theorem calculate_rsi_bounds_witness :
    (calculate_rsi [1, 2, 3] 2).getD 1 none
      = some (100 * (1 / 2) / (1 / 2 + floatEps)) ∧
    (0 ≤ 100 * ((1 : ℚ) / 2) / (1 / 2 + floatEps) ∧
      100 * ((1 : ℚ) / 2) / (1 / 2 + floatEps) ≤ 100) := by
  have h := calculate_rsi_bounds [1, 2, 3] 2 (by decide) (by decide)
  have h2 := h.2 1 (1 / 2) (by decide) (by decide) (by decide)
  exact ⟨h2, h.1 1 _ h2⟩

/-! ## Claim C7: Bollinger band ordering -/

/-- C7: wherever the three Bollinger band series computed by
calculate_bollinger_bands with the default multiplier 2 are all present,
the lower band is at most the middle band, which is at most the upper
band (the rolling standard deviation is a real square root, hence
non-negative). -/
theorem bollinger_band_order (close : List ℚ) (w i : ℕ) (u l : ℝ) (m : ℚ)
    (hu : (calculate_bollinger_bands close w 2).1.getD i none = some u)
    (hm : (calculate_bollinger_bands close w 2).2.1.getD i none = some m)
    (hl : (calculate_bollinger_bands close w 2).2.2.getD i none = some l) :
    l ≤ (m : ℝ) ∧ (m : ℝ) ≤ u := by
  unfold calculate_bollinger_bands at hu hm hl
  rw [getD_range_map] at hu hm hl
  by_cases hi : i < close.length
  · rw [if_pos hi] at hu hm hl
    unfold bbUpperAt at hu
    unfold bbLowerAt at hl
    cases hmid : bbMiddleAt close w i with
    | none => rw [hmid] at hu; cases hu
    | some m0 =>
      cases hstd : bbStdAt close w i with
      | none => rw [hmid, hstd] at hu; cases hu
      | some s =>
        rw [hmid, hstd] at hu hl
        simp only at hu hl
        have hm0 : m0 = m := by
          rw [hmid] at hm
          exact Option.some_injective _ hm
        have hu' : u = (m0 : ℝ) + s * ((2 : ℚ) : ℝ) := (Option.some_injective _ hu).symm
        have hl' : l = (m0 : ℝ) - s * ((2 : ℚ) : ℝ) := (Option.some_injective _ hl).symm
        have hs : 0 ≤ s := by
          unfold bbStdAt at hstd
          rcases Option.map_eq_some'.mp hstd with ⟨v0, hv0, hsq⟩
          rw [← hsq]
          exact Real.sqrt_nonneg _
        subst hm0
        rw [hu', hl']
        have h2 : (0 : ℝ) ≤ ((2 : ℚ) : ℝ) := by norm_num
        constructor <;> nlinarith
  · rw [if_neg hi] at hu; cases hu

/-- Witness: on the constant two-point series with window 2 all three
bands are present and equal at index 1 (the rolling variance is 0), and
the ordering theorem applies there. -/
theorem bollinger_band_order_witness :
    ((1 : ℚ) : ℝ) ≤ ((1 : ℚ) : ℝ) ∧ ((1 : ℚ) : ℝ) ≤ ((1 : ℚ) : ℝ) := by
  have hmid : (calculate_bollinger_bands [1, 1] 2 2).2.1.getD 1 none = some 1 := by
    unfold calculate_bollinger_bands
    rw [getD_range_map]
    norm_num [bbMiddleAt, rollingMeanAt, List.range_succ]
  have hvar : bbVarAt [1, 1] 2 1 = some 0 := by
    norm_num [bbVarAt, List.range_succ]
  have hup : (calculate_bollinger_bands [1, 1] 2 2).1.getD 1 none = some ((1 : ℚ) : ℝ) := by
    unfold calculate_bollinger_bands
    rw [getD_range_map]
    have : bbMiddleAt [1, 1] 2 1 = some 1 := by
      norm_num [bbMiddleAt, rollingMeanAt, List.range_succ]
    norm_num [bbUpperAt, bbStdAt, this, hvar, Real.sqrt_zero]
  have hlo : (calculate_bollinger_bands [1, 1] 2 2).2.2.getD 1 none = some ((1 : ℚ) : ℝ) := by
    unfold calculate_bollinger_bands
    rw [getD_range_map]
    have : bbMiddleAt [1, 1] 2 1 = some 1 := by
      norm_num [bbMiddleAt, rollingMeanAt, List.range_succ]
    norm_num [bbLowerAt, bbStdAt, this, hvar, Real.sqrt_zero]
  exact bollinger_band_order [1, 1] 2 1 ((1 : ℚ) : ℝ) ((1 : ℚ) : ℝ) 1 hup hmid hlo

/-! ## Claims C5, C6 and C10: the level detector

Supporting lemmas: every peak index the scipy model produces is a valid
index of the series, the post-processing steps only select sublists, and
the deduplication pass — although it compares each element against its
predecessor in the input rather than against the previously kept element
— still guarantees the claimed spacing between consecutive kept levels
of a sorted positive list. -/

/-- An element read with `getD` at a valid index is a member. -/
theorem getD_mem {α : Type} {l : List α} {i : ℕ} (h : i < l.length) (d : α) :
    l.getD i d ∈ l := by
  rw [List.getD_eq_getElem?_getD, List.getElem?_eq_getElem h]
  exact List.getElem_mem h

/-- The plateau scan never moves past the last interior index. -/
theorem plateauEnd_le (x : List ℚ) (iMax : ℕ) (v : ℚ) :
    ∀ fuel j, j ≤ iMax → plateauEnd x iMax v fuel j ≤ iMax
  | 0, j, h => h
  | fuel + 1, j, h => by
    unfold plateauEnd
    split
    · rename_i hc
      exact plateauEnd_le x iMax v fuel (j + 1) (by omega)
    · exact h

/-- Every recorded local maximum lies strictly below `iMax`. -/
theorem localMaximaAux_mem_lt (x : List ℚ) (iMax : ℕ) :
    ∀ fuel i p, p ∈ localMaximaAux x iMax fuel i → p < iMax
  | 0, i, p, h => by cases h
  | fuel + 1, i, p, h => by
    unfold localMaximaAux at h
    by_cases hi : i < iMax
    · rw [if_pos hi] at h
      by_cases hrise : x.getD (i - 1) 0 < x.getD i 0
      · simp only [if_pos hrise] at h
        have hA_le : plateauEnd x iMax (x.getD i 0) x.length (i + 1) ≤ iMax :=
          plateauEnd_le x iMax _ x.length (i + 1) (by omega)
        by_cases hfall :
            x.getD (plateauEnd x iMax (x.getD i 0) x.length (i + 1)) 0 < x.getD i 0
        · rw [if_pos hfall] at h
          rcases List.mem_cons.mp h with rfl | h'
          · omega
          · exact localMaximaAux_mem_lt x iMax fuel _ p h'
        · rw [if_neg hfall] at h
          exact localMaximaAux_mem_lt x iMax fuel _ p h
      · simp only [if_neg hrise] at h
        exact localMaximaAux_mem_lt x iMax fuel _ p h
    · rw [if_neg hi] at h
      cases h

/-- The loop body is never entered once the cursor reaches `iMax`. -/
theorem localMaximaAux_eq_nil (x : List ℚ) (iMax : ℕ) :
    ∀ fuel i, iMax ≤ i → localMaximaAux x iMax fuel i = []
  | 0, _, _ => rfl
  | fuel + 1, i, h => by
    unfold localMaximaAux
    rw [if_neg (by omega)]

/-- A series shorter than three points has no interior local maximum. -/
theorem localMaxima_short (x : List ℚ) (h : x.length < 3) : localMaxima x = [] := by
  unfold localMaxima
  exact localMaximaAux_eq_nil x _ x.length 1 (by omega)

/-- The distance filter only selects among the given peaks. -/
theorem selectByPeakDistance_subset (x : List ℚ) (pk : List ℕ) (d : ℕ) :
    ∀ q ∈ selectByPeakDistance x pk d, q ∈ pk := by
  intro q hq
  unfold selectByPeakDistance at hq
  rcases List.mem_map.mp hq with ⟨i, hi, rfl⟩
  have hlt : i < pk.length := by
    have := (List.mem_filter.mp hi).1
    simpa using List.mem_range.mp this
  exact getD_mem hlt 0

/-- Every index find_peaks returns is a recorded local maximum. -/
theorem find_peaks_subset (x : List ℚ) (d : ℕ) (prom : ℚ) :
    ∀ p ∈ find_peaks x d prom, p ∈ localMaxima x := by
  intro p hp
  unfold find_peaks at hp
  exact selectByPeakDistance_subset x _ d p (List.mem_filter.mp hp).1

/-- Every index find_peaks returns is a valid index of the series. -/
theorem find_peaks_lt_length (x : List ℚ) (d : ℕ) (prom : ℚ) :
    ∀ p ∈ find_peaks x d prom, p < x.length := by
  intro p hp
  have h1 := find_peaks_subset x d prom p hp
  have h2 := localMaximaAux_mem_lt x (x.length - 1) x.length 1 p h1
  omega

/-- find_peaks finds nothing on a series shorter than three points. -/
theorem find_peaks_nil_of_short (x : List ℚ) (d : ℕ) (prom : ℚ)
    (h : x.length < 3) : find_peaks x d prom = [] := by
  unfold find_peaks
  rw [localMaxima_short x h]
  rfl

/-- The zip-filter comprehension coincides with the recursion. -/
theorem zip_filter_eq_dedupAux : ∀ (rest : List ℚ) (prev : ℚ),
    ((rest.zip (prev :: rest)).filter
      (fun p => (1 : ℚ) / 1000 < qabs (p.1 - p.2) / p.1)).map Prod.fst
      = dedupAux prev rest
  | [], _ => rfl
  | s :: t, prev => by
    show (((s, prev) :: t.zip (s :: t)).filter _).map Prod.fst = _
    rw [List.filter_cons]
    by_cases h : (1 : ℚ) / 1000 < qabs (s - prev) / s
    · rw [if_pos (by simpa using h), List.map_cons, zip_filter_eq_dedupAux t s]
      simp only [dedupAux]
      rw [if_pos h]
    · rw [if_neg (by simpa using h), zip_filter_eq_dedupAux t s]
      simp only [dedupAux]
      rw [if_neg h]

/-- dedupLevels unfolds to the recursion on a non-empty list. -/
theorem dedupLevels_cons (a : ℚ) (rest : List ℚ) :
    dedupLevels (a :: rest) = a :: dedupAux a rest := by
  show a :: _ = a :: dedupAux a rest
  rw [zip_filter_eq_dedupAux]

/-- The recursion keeps a sublist of its input. -/
theorem dedupAux_sublist : ∀ (rest : List ℚ) (prev : ℚ), List.Sublist (dedupAux prev rest) rest
  | [], _ => List.Sublist.refl _
  | s :: t, prev => by
    unfold dedupAux
    split
    · exact List.Sublist.cons₂ s (dedupAux_sublist t s)
    · exact List.Sublist.cons s (dedupAux_sublist t s)

/-- Deduplication keeps a sublist of its input. -/
theorem dedupLevels_sublist (l : List ℚ) : List.Sublist (dedupLevels l) l := by
  cases l with
  | nil => exact List.Sublist.refl _
  | cons a rest =>
    rw [dedupLevels_cons]
    exact List.Sublist.cons₂ a (dedupAux_sublist rest a)

/-- Core spacing argument: walking the recursion over a sorted positive
tail, every kept element is more than 0.1 percent above the previously
kept element `last`, because it is more than 0.1 percent of itself above
its own predecessor `prev`, and `last ≤ prev`. -/
theorem chain'_dedupAux : ∀ (rest : List ℚ) (last prev : ℚ), 0 < last → last ≤ prev →
    (∀ x ∈ rest, 0 < x) → List.Chain' (· ≤ ·) (prev :: rest) →
    List.Chain' wellSeparated (last :: dedupAux prev rest)
  | [], _, _, _, _, _, _ => by simp [dedupAux]
  | s :: t, last, prev, hlast, hlp, hpos, hchain => by
    have hps : prev ≤ s := (List.chain'_cons.mp hchain).1
    have hchain_t : List.Chain' (· ≤ ·) (s :: t) := (List.chain'_cons.mp hchain).2
    have hspos : 0 < s := hpos s (List.mem_cons_self s t)
    have hpos_t : ∀ x ∈ t, 0 < x := fun x hx => hpos x (List.mem_cons_of_mem s hx)
    unfold dedupAux
    split
    · rename_i hkeep
      rw [List.chain'_cons]
      constructor
      · unfold wellSeparated
        rw [qabs_of_nonneg (by linarith)] at hkeep ⊢
        rw [lt_div_iff hspos] at hkeep
        rw [lt_div_iff hlast]
        nlinarith
      · exact chain'_dedupAux t s s hspos le_rfl hpos_t hchain_t
    · exact chain'_dedupAux t last s hlast (le_trans hlp hps) hpos_t hchain_t

/-- Deduplicating a sorted positive list yields consecutively-kept
levels spaced by more than 0.1 percent. -/
theorem chain'_dedupLevels (l : List ℚ) (hpos : ∀ x ∈ l, 0 < x)
    (hs : List.Chain' (· ≤ ·) l) : List.Chain' wellSeparated (dedupLevels l) := by
  cases l with
  | nil => simp [dedupLevels]
  | cons a rest =>
    rw [dedupLevels_cons]
    exact chain'_dedupAux rest a a (hpos a (List.mem_cons_self a rest)) le_rfl
      (fun x hx => hpos x (List.mem_cons_of_mem a hx)) hs

/-- The recency cut returns a sorted list. -/
theorem keepRecentLevels_sorted (l : List ℚ) :
    List.Sorted (fun a b : ℚ => a ≤ b) (keepRecentLevels l) := by
  unfold keepRecentLevels
  split
  · unfold lastFive
    exact (List.sorted_insertionSort _ l).sublist (List.drop_sublist _ _)
  · simp

/-- The recency cut only selects elements of its input. -/
theorem keepRecentLevels_subset {x : ℚ} {l : List ℚ}
    (hx : x ∈ keepRecentLevels l) : x ∈ l := by
  unfold keepRecentLevels at hx
  split at hx
  · unfold lastFive at hx
    have hx' := List.drop_subset _ _ hx
    exact (List.perm_insertionSort _ l).mem_iff.mp hx'
  · cases hx

/-- The recency cut keeps at most five levels. -/
theorem keepRecentLevels_length_le (l : List ℚ) :
    (keepRecentLevels l).length ≤ 5 := by
  unfold keepRecentLevels
  split
  · unfold lastFive
    rw [List.length_drop]
    omega
  · simp

/-- The guarded deduplication keeps a sublist of its input. -/
theorem dedupIfNonempty_sublist (l : List ℚ) : List.Sublist (dedupIfNonempty l) l := by
  unfold dedupIfNonempty
  split
  · exact dedupLevels_sublist l
  · exact List.Sublist.refl _

/-- The guarded deduplication of a sorted positive list satisfies the
spacing chain. -/
theorem dedupIfNonempty_chain (l : List ℚ) (hpos : ∀ x ∈ l, 0 < x)
    (hs : List.Sorted (fun a b : ℚ => a ≤ b) l) :
    List.Chain' wellSeparated (dedupIfNonempty l) := by
  unfold dedupIfNonempty
  split
  · exact chain'_dedupLevels l hpos hs.chain'
  · rename_i hlen
    have : l = [] := by
      cases l with
      | nil => rfl
      | cons a rest => exact absurd (by simp) hlen
    rw [this]
    simp

/-- The result of find_support_resistance, with the let chain unfolded. -/
theorem fsr_eq (close : List ℚ) (w : ℕ) (p : ℚ) :
    find_support_resistance close w p =
      (dedupIfNonempty (keepRecentLevels
          ((find_peaks (close.map (fun q => -q)) w p).map (fun i => close.getD i 0))),
       dedupIfNonempty (keepRecentLevels
          ((find_peaks close w p).map (fun i => close.getD i 0)))) := rfl

/-- C5 counterexample: the three-point series [1, 2, 1] is far shorter
than 2 * window + 1 = 21, yet its resistance level set is the non-empty
[2]: the distance argument of scipy find_peaks prunes between peaks but
imposes no minimal series length. -/
theorem find_support_resistance_short_nonempty :
    (find_support_resistance [1, 2, 1] 10 (1 / 2)).2 = [2] ∧
    ([1, 2, 1] : List ℚ).length < 2 * 10 + 1 := by
  exact ⟨by decide, by decide⟩

/-- C5 amended: for every input and every window and prominence, both
level sets carry at most five levels; and both level sets are empty for
every series shorter than three points (the minimum for an interior
extremum) — not for every series shorter than 2 * window + 1. -/
theorem find_support_resistance_counts (close : List ℚ) (w : ℕ) (p : ℚ) :
    ((find_support_resistance close w p).1.length ≤ 5 ∧
     (find_support_resistance close w p).2.length ≤ 5) ∧
    (close.length < 3 →
      (find_support_resistance close w p).1 = [] ∧
      (find_support_resistance close w p).2 = []) := by
  rw [fsr_eq]
  dsimp only
  constructor
  · constructor
    · have h1 := (dedupIfNonempty_sublist
        (keepRecentLevels ((find_peaks (close.map (fun q => -q)) w p).map
          (fun i => close.getD i 0)))).length_le
      have h2 := keepRecentLevels_length_le ((find_peaks (close.map (fun q => -q)) w p).map
        (fun i => close.getD i 0))
      omega
    · have h1 := (dedupIfNonempty_sublist
        (keepRecentLevels ((find_peaks close w p).map (fun i => close.getD i 0)))).length_le
      have h2 := keepRecentLevels_length_le ((find_peaks close w p).map
        (fun i => close.getD i 0))
      omega
  · intro hshort
    have hneg : find_peaks (close.map (fun q => -q)) w p = [] := by
      apply find_peaks_nil_of_short
      simpa using hshort
    have hzro : find_peaks close w p = [] := find_peaks_nil_of_short close w p hshort
    rw [hneg, hzro]
    exact ⟨rfl, rfl⟩

/-- Witness: the amended count bounds applied to the two-point series
[1, 2]. -/
theorem find_support_resistance_counts_witness :
    (((find_support_resistance [1, 2] 10 (1 / 2)).1.length ≤ 5 ∧
      (find_support_resistance [1, 2] 10 (1 / 2)).2.length ≤ 5) ∧
     ((find_support_resistance [1, 2] 10 (1 / 2)).1 = [] ∧
      (find_support_resistance [1, 2] 10 (1 / 2)).2 = [])) :=
  ⟨(find_support_resistance_counts [1, 2] 10 (1 / 2)).1,
   (find_support_resistance_counts [1, 2] 10 (1 / 2)).2 (by decide)⟩

/-- C6: on a series of positive prices, any two consecutively-kept
levels a (kept earlier) and b (the next kept one) of either returned
level set satisfy |b - a| / a > 0.001, for every window and prominence. -/
theorem find_support_resistance_spacing (close : List ℚ) (w : ℕ) (p : ℚ)
    (hpos : ∀ x ∈ close, 0 < x) :
    List.Chain' wellSeparated (find_support_resistance close w p).1 ∧
    List.Chain' wellSeparated (find_support_resistance close w p).2 := by
  rw [fsr_eq]
  constructor
  · apply dedupIfNonempty_chain
    · intro x hx
      rcases List.mem_map.mp (keepRecentLevels_subset hx) with ⟨i, hi, rfl⟩
      have hilt : i < close.length := by
        have := find_peaks_lt_length (close.map (fun q => -q)) w p i hi
        simpa using this
      exact hpos _ (getD_mem hilt 0)
    · exact keepRecentLevels_sorted _
  · apply dedupIfNonempty_chain
    · intro x hx
      rcases List.mem_map.mp (keepRecentLevels_subset hx) with ⟨i, hi, rfl⟩
      have hilt : i < close.length := find_peaks_lt_length close w p i hi
      exact hpos _ (getD_mem hilt 0)
    · exact keepRecentLevels_sorted _

/-- Witness: the spacing chain evaluated on a positive series producing
one support level and two resistance levels. -/
theorem find_support_resistance_spacing_witness :
    List.Chain' wellSeparated
      (find_support_resistance [1, 5, 1, 1, 1, 1, 1, 1, 1, 1, 1, 1, 7, 1] 10 (1 / 2)).1 ∧
    List.Chain' wellSeparated
      (find_support_resistance [1, 5, 1, 1, 1, 1, 1, 1, 1, 1, 1, 1, 7, 1] 10 (1 / 2)).2 :=
  find_support_resistance_spacing [1, 5, 1, 1, 1, 1, 1, 1, 1, 1, 1, 1, 7, 1] 10 (1 / 2)
    (by decide)

/-- C10: both level lists returned by find_support_resistance are sorted
ascending, for every input, window and prominence: the candidates are
sorted before the recency cut, and both the cut and the single
left-to-right deduplication pass keep sublists. -/
theorem find_support_resistance_sorted (close : List ℚ) (w : ℕ) (p : ℚ) :
    List.Sorted (fun a b : ℚ => a ≤ b) (find_support_resistance close w p).1 ∧
    List.Sorted (fun a b : ℚ => a ≤ b) (find_support_resistance close w p).2 := by
  rw [fsr_eq]
  exact ⟨(keepRecentLevels_sorted _).sublist (dedupIfNonempty_sublist _),
    (keepRecentLevels_sorted _).sublist (dedupIfNonempty_sublist _)⟩

/-! ## Claim C9: the normalization steps are idempotent on canonical input

A canonical frame — the shape the pipeline itself produces: the six
canonical columns in order with parsed timestamps, followed by the two
derived change columns computed from the close column — is a fixed point
of the column-collapsing (trivial on single-level input), renaming,
timestamp-resolution, column-resolution and derived-column steps. -/

/-- `pd.to_datetime` is the identity on a column of parsed datetimes. -/
theorem mapM_toDatetimeCell (l : List Cell) (h : l.all isTimeCell = true) :
    l.mapM toDatetimeCell = Except.ok l := by
  induction l with
  | nil => rfl
  | cons c rest ih =>
    rw [List.all_cons, Bool.and_eq_true] at h
    have hc : toDatetimeCell c = .ok c := by
      cases c with
      | time t => rfl
      | num q => exact Bool.noConfusion h.1
      | nan => exact Bool.noConfusion h.1
      | raw s => exact Bool.noConfusion h.1
    rw [List.mapM_cons, hc, ih h.2]
    rfl

/-- A frame left unchanged by every individual step is returned
unchanged by the composed pipeline. -/
theorem normalizeSteps_fixed_point (f : Frame)
    (h1 : lowerCols f = f)
    (h2 : resolveDateCol f = .ok f)
    (h3 : parseDates f = .ok f)
    (h4 : resolveCase f = f)
    (h5 : resolveSubstr f = f)
    (h6 : requiredColumns.filter (fun r => ¬ hasCol f r) = [])
    (h7 : setCol "price_change" (diffCells (getColD f "close")) f = f)
    (h8 : setCol "percent_change" (pctCells (getColD f "close")) f = f) :
    normalizeSteps f = .ok f := by
  unfold normalizeSteps
  simp only [h1, h2, h3, h4, h5, h6]
  simp
  rw [h7, h8]

/-- C9: applying the renaming, timestamp-resolution, column-resolution
and derived-column steps of the normalizer to an already-canonical frame
(lowercase canonical column names, parsed timestamps, derived change
columns consistent with the close column) returns it unchanged: the same
columns with the same values. -/
theorem normalizeSteps_canonical_idempotent (v0 v1 v2 v3 v4 v5 : List Cell)
    (hdate : v0.all isTimeCell = true) :
    normalizeSteps
      [("date", v0), ("open", v1), ("high", v2), ("low", v3), ("close", v4),
       ("volume", v5), ("price_change", diffCells v4), ("percent_change", pctCells v4)]
      = .ok [("date", v0), ("open", v1), ("high", v2), ("low", v3), ("close", v4),
       ("volume", v5), ("price_change", diffCells v4), ("percent_change", pctCells v4)] := by
  apply normalizeSteps_fixed_point
  · rfl
  · rfl
  · unfold parseDates
    rw [show getColD
        [("date", v0), ("open", v1), ("high", v2), ("low", v3), ("close", v4),
         ("volume", v5), ("price_change", diffCells v4), ("percent_change", pctCells v4)] "date"
      = v0 from rfl]
    rw [mapM_toDatetimeCell v0 hdate]
    rfl
  · rfl
  · rfl
  · rfl
  · rfl
  · rfl

/-- Witness: idempotence evaluated on a concrete two-row canonical
frame. -/
theorem normalizeSteps_canonical_idempotent_witness :
    normalizeSteps
      [("date", [Cell.time 0, Cell.time 3600]),
       ("open", [Cell.num 1, Cell.num 2]),
       ("high", [Cell.num 3, Cell.num 4]),
       ("low", [Cell.num 1, Cell.num 1]),
       ("close", [Cell.num 2, Cell.num 3]),
       ("volume", [Cell.num 10, Cell.num 20]),
       ("price_change", diffCells [Cell.num 2, Cell.num 3]),
       ("percent_change", pctCells [Cell.num 2, Cell.num 3])]
      = .ok [("date", [Cell.time 0, Cell.time 3600]),
       ("open", [Cell.num 1, Cell.num 2]),
       ("high", [Cell.num 3, Cell.num 4]),
       ("low", [Cell.num 1, Cell.num 1]),
       ("close", [Cell.num 2, Cell.num 3]),
       ("volume", [Cell.num 10, Cell.num 20]),
       ("price_change", diffCells [Cell.num 2, Cell.num 3]),
       ("percent_change", pctCells [Cell.num 2, Cell.num 3])] :=
  normalizeSteps_canonical_idempotent
    [Cell.time 0, Cell.time 3600] [Cell.num 1, Cell.num 2] [Cell.num 3, Cell.num 4]
    [Cell.num 1, Cell.num 1] [Cell.num 2, Cell.num 3] [Cell.num 10, Cell.num 20]
    (by decide)

end SignalAgent
